import Mathlib

/-!
Verification development for the simple-expense-analyzer CSV normalization
pipeline.  The definitions below are a shallow embedding of the TypeScript
sources:

  * `src/utils/csvParser.ts` — locale parsers (`parseCzechNumber`,
    `parseDate`), the category inferencer (`guessCategory`), the bank format
    registry (`BANK_FORMATS`), and the pipeline (`parseCSV`);
  * `src/utils/privacy.ts` (the privacy-mode utilities file) —
    `maskAmount`, `maskString`, `maskCounterparty`, `maskDescription`,
    `maskTransaction`;
  * `src/utils/storage.ts` — `loadFromStorage`.

JavaScript numbers are modelled as rationals (`ℚ`); JavaScript `Date`
values as calendar dates (`SDate`), since time-of-day is not meaningful in
this application.  Library builtins (`String.prototype.includes`,
`parseFloat`, date-fns `parse`, the `Date` constructor, Papa Parse) are
modelled by executable Lean functions that follow their documented
behaviour on the string shapes this application produces and consumes;
each model notes its scope in a comment.
-/

/-- Substring test helper: is `pat` a prefix of the character list? -/
def listIsPrefixB : List Char → List Char → Bool
  | [], _ => true
  | _ :: _, [] => false
  | a :: as, b :: bs => a == b && listIsPrefixB as bs

/-- Does the character list contain `pat` as a contiguous run? -/
def listContainsB (pat : List Char) : List Char → Bool
  | [] => pat.isEmpty
  | b :: bs => listIsPrefixB pat (b :: bs) || listContainsB pat bs

/-- Model of JavaScript `String.prototype.includes` (substring containment).
All strings in this application are in the Basic Multilingual Plane, so
code-point containment coincides with UTF-16 containment. -/
def strContains (s pat : String) : Bool := listContainsB pat.data s.data

/-- Model of JavaScript `toLowerCase` on one character.  JS lower-cases the
full Unicode range; the sources only ever feed it ASCII and Czech letters,
which this model covers. -/
def jsToLowerChar (c : Char) : Char :=
  if 'A' ≤ c ∧ c ≤ 'Z' then Char.ofNat (c.toNat + 32)
  else if c = 'Á' then 'á' else if c = 'Č' then 'č' else if c = 'Ď' then 'ď'
  else if c = 'É' then 'é' else if c = 'Ě' then 'ě' else if c = 'Í' then 'í'
  else if c = 'Ň' then 'ň' else if c = 'Ó' then 'ó' else if c = 'Ř' then 'ř'
  else if c = 'Š' then 'š' else if c = 'Ť' then 'ť' else if c = 'Ú' then 'ú'
  else if c = 'Ů' then 'ů' else if c = 'Ý' then 'ý' else if c = 'Ž' then 'ž'
  else c

/-- Model of JavaScript `String.prototype.toLowerCase`. -/
def jsToLower (s : String) : String := String.mk (s.data.map jsToLowerChar)

/-- Membership in the JavaScript regular-expression class `\s`
(whitespace), restricted to the characters that can occur in this
application's data. -/
def jsIsSpace (c : Char) : Bool :=
  c = ' ' || c = '\t' || c = '\n' || c = '\r' ||
  c = '\x0b' || c = '\x0c' || c = ' '

/-- JavaScript truthiness for an optional string: `undefined` and the empty
string are falsy. -/
def jsTruthyStr : Option String → Bool
  | none => false
  | some s => s ≠ ""

/-- Model of JavaScript `String.prototype.startsWith`. -/
def jsStartsWith (s pre : String) : Bool := listIsPrefixB pre.data s.data

/-- Split on a single character, keeping empty segments, as JavaScript
`String.prototype.split` with a one-character separator string. -/
def splitOnCharGo (sep : Char) : List Char → List Char → List String
  | [], cur => [String.mk cur.reverse]
  | c :: rest, cur =>
    if c = sep then String.mk cur.reverse :: splitOnCharGo sep rest []
    else splitOnCharGo sep rest (c :: cur)

/-- Model of JavaScript `s.split(sep)` for a one-character separator. -/
def splitOnChar (sep : Char) (s : String) : List String := splitOnCharGo sep s.data []

/-- Model of JavaScript `String.prototype.trim`: drop leading and trailing
whitespace. -/
def jsTrim (s : String) : String :=
  String.mk (((s.data.dropWhile jsIsSpace).reverse.dropWhile jsIsSpace).reverse)

/-- Model of the JavaScript `||` idiom `a || b` on an optional string `a`
with string default `b` (used with `row['k'] || 'default'`). -/
def jsOr (a : Option String) (b : String) : String :=
  match a with
  | none => b
  | some s => if s = "" then b else s

/-- Numeric value of a digit list (most significant first). -/
def digitsVal (ds : List Char) : Nat :=
  ds.foldl (fun acc c => acc * 10 + (c.toNat - 48)) 0

/-- Greedily take at most `n` leading decimal digits. -/
def takeDigitsUpTo : Nat → List Char → List Char × List Char
  | 0, cs => ([], cs)
  | _ + 1, [] => ([], [])
  | n + 1, c :: cs =>
    if c.isDigit then
      let (ds, r) := takeDigitsUpTo n cs
      (c :: ds, r)
    else ([], c :: cs)

/-- Take all leading decimal digits. -/
def takeDigits (cs : List Char) : List Char × List Char :=
  (cs.takeWhile Char.isDigit, cs.dropWhile Char.isDigit)

/-- Model of the ECMAScript `parseFloat` builtin on finite decimal inputs:
skip leading whitespace, then greedily read an optional sign, an integer
part, an optional fraction and an optional exponent, ignoring any trailing
garbage; `none` models `NaN` (no digits readable).  The special literal
`Infinity`, which never occurs in bank exports, is not modelled. -/
def jsParseFloat (s : String) : Option ℚ :=
  let cs := s.data.dropWhile jsIsSpace
  let (neg, cs1) : Bool × List Char :=
    match cs with
    | '-' :: r => (true, r)
    | '+' :: r => (false, r)
    | r => (false, r)
  let (ip, cs2) := takeDigits cs1
  let (fp, cs3) : List Char × List Char :=
    match cs2 with
    | '.' :: r => takeDigits r
    | r => ([], r)
  if ip.isEmpty && fp.isEmpty then none
  else
    let mantNum : Nat := digitsVal ip * 10 ^ fp.length + digitsVal fp
    let mantDen : Nat := 10 ^ fp.length
    let expo : Option Int :=
      match cs3 with
      | c :: r =>
        if c = 'e' || c = 'E' then
          let (esign, r1) : Int × List Char :=
            match r with
            | '-' :: rr => (-1, rr)
            | '+' :: rr => (1, rr)
            | rr => (1, rr)
          let (eds, _) := takeDigits r1
          if eds.isEmpty then none else some (esign * (digitsVal eds : Int))
        else none
      | [] => none
    let (num, den) : Nat × Nat :=
      match expo with
      | none => (mantNum, mantDen)
      | some ex =>
        if 0 ≤ ex then (mantNum * 10 ^ ex.toNat, mantDen)
        else (mantNum, mantDen * 10 ^ (-ex).toNat)
    some (mkRat (if neg then -(Int.ofNat num) else Int.ofNat num) den)

/-- Replace the first comma with a period, as JavaScript
`str.replace(',', '.')` does with a string pattern. -/
def replaceFirstComma : List Char → List Char
  | [] => []
  | c :: rest => if c = ',' then '.' :: rest else c :: replaceFirstComma rest

/-- `parseCzechNumber` from `csvParser.ts`: reject missing/empty input,
strip all whitespace (`/\s/g`), turn the first comma into a period, parse
as floating point, and map a failed parse (`NaN`) to `0`. -/
def parseCzechNumber (str : Option String) : ℚ :=
  match str with
  | none => 0
  | some s =>
    if s = "" then 0
    else
      let cleaned := String.mk (replaceFirstComma (s.data.filter (fun c => !jsIsSpace c)))
      match jsParseFloat cleaned with
      | none => 0
      | some q => q

/-- `parseCzechNumber` applied to a present string value. -/
def parseCzechNumberS (s : String) : ℚ := parseCzechNumber (some s)

/-- A calendar date.  JavaScript `Date` values in this application carry no
meaningful time-of-day, so dates are modelled by their calendar day. -/
structure SDate where
  year : Nat
  month : Nat
  day : Nat
deriving DecidableEq, Repr

/-- Monotone numeric encoding of the calendar order on `SDate`; stands in
for `Date.prototype.getTime` (month and day both fit below 100, so the
encoding is lexicographic). -/
def SDate.time (d : SDate) : Nat := d.year * 10000 + d.month * 100 + d.day

/-- Gregorian leap-year test. -/
def isLeapYear (y : Nat) : Bool := (y % 4 = 0 && y % 100 ≠ 0) || y % 400 = 0

/-- Number of days in a month (months are 1-based). -/
def daysInMonth (y m : Nat) : Nat :=
  [31, if isLeapYear y then 29 else 28, 31, 30, 31, 30, 31, 31, 30, 31, 30, 31].getD (m - 1) 0

/-- Range-validate parsed components, as both date-fns `parse`/`isValid`
and the `Date` constructor do: the month must be 1–12 and the day must
exist in that month. -/
def mkValidDate (y m d : Nat) : Option SDate :=
  if 1 ≤ m ∧ m ≤ 12 ∧ 1 ≤ d ∧ d ≤ daysInMonth y m then some ⟨y, m, d⟩ else none

/-- Model of date-fns `parse` with a day–month–year layout separated by
`sep` (covers the `dd.MM.yyyy`, `d.M.yyyy` and `dd/MM/yyyy` layouts: in
date-fns both `d` and `dd` match one or two digits, and `yyyy` matches up
to four).  The whole string must be consumed, and the components must form
a real calendar date, else the result is invalid (`none`). -/
def dfnsParseDMY (sep : Char) (s : String) : Option SDate :=
  let (dds, r1) := takeDigitsUpTo 2 s.data
  if dds.isEmpty then none
  else
    match r1 with
    | c1 :: r2 =>
      if c1 ≠ sep then none
      else
        let (mds, r3) := takeDigitsUpTo 2 r2
        if mds.isEmpty then none
        else
          match r3 with
          | c2 :: r4 =>
            if c2 ≠ sep then none
            else
              let (yds, r5) := takeDigitsUpTo 4 r4
              if yds.isEmpty then none
              else if !r5.isEmpty then none
              else mkValidDate (digitsVal yds) (digitsVal mds) (digitsVal dds)
          | [] => none
    | [] => none

/-- Model of date-fns `parse` with the `yyyy-MM-dd` layout (year first). -/
def dfnsParseYMD (sep : Char) (s : String) : Option SDate :=
  let (yds, r1) := takeDigitsUpTo 4 s.data
  if yds.isEmpty then none
  else
    match r1 with
    | c1 :: r2 =>
      if c1 ≠ sep then none
      else
        let (mds, r3) := takeDigitsUpTo 2 r2
        if mds.isEmpty then none
        else
          match r3 with
          | c2 :: r4 =>
            if c2 ≠ sep then none
            else
              let (dds, r5) := takeDigitsUpTo 2 r4
              if dds.isEmpty then none
              else if !r5.isEmpty then none
              else mkValidDate (digitsVal yds) (digitsVal mds) (digitsVal dds)
          | [] => none
    | [] => none

/-- Shape check for the time part of an ISO 8601 date-time string:
`THH:mm`, optionally `:ss`, optionally `.SSS`, optionally `Z`. -/
def isoTimePart (cs : List Char) : Bool :=
  match cs with
  | 'T' :: rest =>
    let (hh, r1) := takeDigitsUpTo 2 rest
    if hh.length ≠ 2 ∨ digitsVal hh > 23 then false
    else
      match r1 with
      | ':' :: r2 =>
        let (mm, r3) := takeDigitsUpTo 2 r2
        if mm.length ≠ 2 ∨ digitsVal mm > 59 then false
        else
          match r3 with
          | [] => true
          | 'Z' :: [] => true
          | ':' :: r4 =>
            let (ss, r5) := takeDigitsUpTo 2 r4
            if ss.length ≠ 2 ∨ digitsVal ss > 59 then false
            else
              match r5 with
              | [] => true
              | 'Z' :: [] => true
              | '.' :: r6 =>
                let (ms, r7) := takeDigitsUpTo 3 r6
                if ms.isEmpty then false
                else
                  match r7 with
                  | [] => true
                  | 'Z' :: [] => true
                  | _ => false
              | _ => false
          | _ => false
      | _ => false
  | _ => false

/-- Model of the ECMAScript `Date(string)` constructor (`new Date(s)`) for
ISO 8601 `YYYY-MM-DD` dates and `YYYY-MM-DDTHH:mm…` date-times — the
shapes this application produces (storage writes `toISOString()` output)
and consumes.  Other, implementation-defined free-form inputs are modelled
as invalid (`none` stands for an Invalid Date). -/
def jsNewDate (s : String) : Option SDate :=
  let (yds, r1) := takeDigitsUpTo 4 s.data
  if yds.length ≠ 4 then none
  else
    match r1 with
    | '-' :: r2 =>
      let (mds, r3) := takeDigitsUpTo 2 r2
      if mds.length ≠ 2 then none
      else
        match r3 with
        | '-' :: r4 =>
          let (dds, r5) := takeDigitsUpTo 2 r4
          if dds.length ≠ 2 then none
          else if r5.isEmpty || isoTimePart r5 then
            mkValidDate (digitsVal yds) (digitsVal mds) (digitsVal dds)
          else none
        | _ => none
    | _ => none

/-- `parseDate` from `csvParser.ts`: falsy (empty) input yields `null`;
otherwise the trimmed string is tried against the layouts `dd.MM.yyyy`,
`d.M.yyyy`, `yyyy-MM-dd`, `dd/MM/yyyy` in that order (the first two are
the same matcher, since date-fns `dd`/`d` both accept one or two digits),
then against the free-form `Date` constructor; the first attempt yielding
a valid date wins, and `none` is returned if every attempt fails. -/
def parseDate (s : String) : Option SDate :=
  if s = "" then none
  else
    let trimmed := jsTrim s
    match dfnsParseDMY '.' trimmed with
    | some d => some d
    | none =>
      match dfnsParseDMY '.' trimmed with
      | some d => some d
      | none =>
        match dfnsParseYMD '-' trimmed with
        | some d => some d
        | none =>
          match dfnsParseDMY '/' trimmed with
          | some d => some d
          | none => jsNewDate trimmed

/-- `parseDate` on a possibly-`undefined` argument (the source signature is
`str: string | undefined`; `undefined` is falsy and yields `null`). -/
def parseDateOpt (s : Option String) : Option SDate :=
  match s with
  | none => none
  | some str => parseDate str

/-- One keyword rule of the category inferencer. -/
structure CategoryRule where
  keywords : List String
  category : String
deriving Repr

/-- The fixed keyword rule table of `guessCategory`, in source order. -/
def categoryRules : List CategoryRule :=
  [ ⟨["rohlik", "albert", "billa", "tesco", "lidl", "kaufland", "penny", "potraviny", "coop", "globus", "bakehouse", "pekarna", "pekárna"], "Potraviny"⟩,
    ⟨["restaura", "mcdonald", "burger", "kfc", "pizza", "foodora", "wolt", "bolt food", "starbucks", "costa"], "Restaurace"⟩,
    ⟨["benzin", "orlen", "mol", "shell", "eni", "čerpací", "tank", "fuel"], "Tankování"⟩,
    ⟨["čez", "cez", "energie", "eon", "pražská plynárenská", "innogy", "plyn"], "Energie"⟩,
    ⟨["t-mobile", "vodafone", "o2", "upc", "netflix", "spotify", "hbo", "nova", "internet"], "TV, internet, telefon"⟩,
    ⟨["ikea", "hornbach", "obi", "bauhaus", "baumax", "jysk"], "Vybavení domácnosti"⟩,
    ⟨["nájem", "najem", "hypot"], "Provoz domácnosti"⟩,
    ⟨["leasing", "splátk", "spláce", "úvěr"], "Splátky"⟩,
    ⟨["vlak", "bus", "jízden", "uber", "liftago", "easyjet", "ryanair", "letušk"], "Doprava"⟩,
    ⟨["lékárna", "lekarna", "doktor", "nemocni", "zdraví", "clinic"], "Zdraví"⟩,
    ⟨["kino", "cinema", "divadlo", "koncert", "festival", "vstupné"], "Zábava"⟩,
    ⟨["apple.com", "google", "amazon", "alza", "czc", "mall.cz", "notino"], "Nákupy a služby"⟩ ]

/-- The `for (const rule of rules)` loop of `guessCategory`: return the
category of the first rule one of whose keywords occurs in the (already
lower-cased) description, else the fallback. -/
def guessCategoryGo (desc : String) : List CategoryRule → String
  | [] => "Ostatní"
  | r :: rest =>
    if r.keywords.any (fun kw => strContains desc kw) then r.category
    else guessCategoryGo desc rest

/-- `guessCategory` from `csvParser.ts`. -/
def guessCategory (description : String) : String :=
  guessCategoryGo (jsToLower description) categoryRules

/-- A raw record produced by the delimited parser: source column header →
string value, in header (insertion) order, as Papa Parse builds with
`header: true`. -/
abbrev RawRow := List (String × String)

/-- Model of JavaScript property read `row[k]` on a raw record:
`none` models `undefined`. -/
def jsGet (row : RawRow) (k : String) : Option String :=
  (row.find? (fun p => p.1 == k)).map (fun p => p.2)

/-- The `MappedRow` interface of `csvParser.ts`. -/
structure MappedRow where
  date : Option SDate
  amount : ℚ
  currency : String
  counterparty : String
  description : String
  category : String
  variableSymbol : String
  note : String
  operationType : String
deriving DecidableEq, Repr

/-- The `BankFormat` interface of `csvParser.ts`.  `headerRow` returns
`none` where the source's `findIndex` returns `-1`. -/
structure BankFormat where
  name : String
  detect : List String → Bool
  headerRow : List String → Option Nat
  delimiter : Char
  map : RawRow → MappedRow

/-- Row mapper of the ČSOB descriptor. -/
def csobMap (row : RawRow) : MappedRow :=
  { date := parseDateOpt (jsGet row "datum zaúčtování")
    amount := parseCzechNumber (jsGet row "částka")
    currency := jsOr (jsGet row "měna") "CZK"
    counterparty := jsOr (jsGet row "jméno protistrany") ""
    description := jsOr (jsGet row "zpráva") (jsOr (jsGet row "označení operace") "")
    category := jsOr (jsGet row "kategorie") "Ostatní"
    variableSymbol := jsOr (jsGet row "variabilní symbol") ""
    note := jsOr (jsGet row "vlastní poznámka") ""
    operationType := jsOr (jsGet row "označení operace") "" }

/-- The ČSOB format descriptor (`BANK_FORMATS.csob`). -/
def csobFormat : BankFormat :=
  { name := "ČSOB"
    detect := fun firstLines =>
      firstLines.any (fun l => strContains l "Pohyby na účtu" && strContains l "/0300")
    headerRow := fun lines => lines.findIdx? (fun l => jsStartsWith l "číslo účtu;")
    delimiter := ';'
    map := csobMap }

/-- Row mapper of the Moneta descriptor (fuzzy substring key matching over
`Object.keys(row)` in insertion order). -/
def monetaMap (row : RawRow) : MappedRow :=
  let keys := row.map (fun p => p.1)
  let dateKey := keys.find? (fun k => strContains k "Datum")
  let amountKey := keys.find? (fun k => strContains k "Částka")
  let descKey := keys.find? (fun k =>
    strContains k "Popis" || strContains k "zpráva" || strContains k "Zpráva")
  let counterKey := keys.find? (fun k =>
    strContains k "protistrany" || strContains k "Příjemce" || strContains k "Plátce")
  let catKey := keys.find? (fun k => strContains k "Kategorie" || strContains k "kategorie")
  { date := parseDate ((jsGet row (dateKey.getD "")).getD "")
    amount := parseCzechNumber (some ((jsGet row (amountKey.getD "")).getD "0"))
    currency := (jsGet row "Měna").getD "CZK"
    counterparty := (jsGet row (counterKey.getD "")).getD ""
    description := (jsGet row (descKey.getD "")).getD ""
    category := (jsGet row (catKey.getD "")).getD
      (guessCategory ((jsGet row (descKey.getD "")).getD ""))
    variableSymbol := (jsGet row "Variabilní symbol").getD ""
    note := ""
    operationType := "" }

/-- The Moneta format descriptor (`BANK_FORMATS.moneta`). -/
def monetaFormat : BankFormat :=
  { name := "Moneta"
    detect := fun firstLines =>
      firstLines.any (fun l =>
        strContains l "Moneta" ||
        (strContains l "\"Číslo účtu\"" && strContains l "\"Datum\"")) ||
      firstLines.any (fun l =>
        strContains l "Číslo účtu" && strContains l "Částka" &&
        strContains l "Popis transakce")
    headerRow := fun lines =>
      lines.findIdx? (fun l => strContains l "Číslo účtu" && strContains l "Částka")
    delimiter := ';'
    map := monetaMap }

/-- Row mapper of the Komerční banka descriptor. -/
def kbMap (row : RawRow) : MappedRow :=
  let keys := row.map (fun p => p.1)
  let dateKey :=
    match keys.find? (fun k => strContains k "Datum" && !strContains k "splatnosti") with
    | some k => some k
    | none => keys.find? (fun k => strContains k "Datum")
  let amountKey := keys.find? (fun k => strContains k "Částka" || strContains k "Objem")
  let descKey := keys.find? (fun k =>
    strContains k "Popis" || strContains k "Poznámka" || strContains k "AV pole")
  let counterKey := keys.find? (fun k =>
    strContains k "Název protiúčtu" || strContains k "Protiúčet")
  let catKey := keys.find? (fun k => strContains k "Kategorie" || strContains k "kategorie")
  { date := parseDate ((jsGet row (dateKey.getD "")).getD "")
    amount := parseCzechNumber (some ((jsGet row (amountKey.getD "")).getD "0"))
    currency := (jsGet row "Měna").getD "CZK"
    counterparty := (jsGet row (counterKey.getD "")).getD ""
    description := (jsGet row (descKey.getD "")).getD ""
    category := (jsGet row (catKey.getD "")).getD
      (guessCategory ((jsGet row (descKey.getD "")).getD ""))
    variableSymbol := (jsGet row "Variabilní symbol").getD ((jsGet row "VS").getD "")
    note := ""
    operationType := "" }

/-- The Komerční banka format descriptor (`BANK_FORMATS.kb`). -/
def kbFormat : BankFormat :=
  { name := "Komerční banka"
    detect := fun firstLines =>
      firstLines.any (fun l =>
        strContains l "Datum splatnosti" ||
        (strContains l "Datum" && strContains l "Objem" && strContains l "Měna"))
    headerRow := fun lines =>
      lines.findIdx? (fun l =>
        (strContains l "Datum" && strContains l "Objem") ||
        (strContains l "Datum" && strContains l "Částka"))
    delimiter := ';'
    map := kbMap }

/-- Case-insensitive test of a key against an alternation of literal
patterns, modelling regular expressions such as `/datum|date/i` (the
patterns are written lower-case in the source). -/
def regexTestCI (k : String) (pats : List String) : Bool :=
  pats.any (fun p => strContains (jsToLower k) p)

/-- Row mapper of the generic descriptor: fuzzy key matching with
positional fallbacks `keys[0]`, `keys[1]`, `keys[2]`. -/
def genericMap (row : RawRow) : MappedRow :=
  let keys := row.map (fun p => p.1)
  let dateKey :=
    match keys.find? (fun k => regexTestCI k ["datum", "date"]) with
    | some k => some k
    | none => keys[0]?
  let amountKey :=
    match keys.find? (fun k => regexTestCI k ["částka", "castka", "amount", "suma", "objem"]) with
    | some k => some k
    | none => keys[1]?
  let descKey :=
    match keys.find? (fun k => regexTestCI k ["popis", "desc", "zpráva", "message", "pozn"]) with
    | some k => some k
    | none => keys[2]?
  let catKey := keys.find? (fun k => regexTestCI k ["kategorie", "category"])
  { date := parseDate ((jsGet row (dateKey.getD "")).getD "")
    amount := parseCzechNumber (some ((jsGet row (amountKey.getD "")).getD "0"))
    currency := "CZK"
    counterparty := ""
    description := (jsGet row (descKey.getD "")).getD ""
    category := (jsGet row (catKey.getD "")).getD
      (guessCategory ((jsGet row (descKey.getD "")).getD ""))
    variableSymbol := ""
    note := ""
    operationType := "" }

/-- The catch-all generic descriptor (`BANK_FORMATS.generic`): its
detector always returns true. -/
def genericFormat : BankFormat :=
  { name := "Generic CSV"
    detect := fun _ => true
    headerRow := fun lines =>
      lines.findIdx? (fun l =>
        (strContains (jsToLower l) "date" || strContains (jsToLower l) "datum") &&
        (strContains (jsToLower l) "amount" || strContains (jsToLower l) "částka" ||
         strContains (jsToLower l) "castka"))
    delimiter := ';'
    map := genericMap }

/-- `Object.entries(BANK_FORMATS)` in declaration (insertion) order. -/
def bankFormatEntries : List (String × BankFormat) :=
  [("csob", csobFormat), ("moneta", monetaFormat), ("kb", kbFormat), ("generic", genericFormat)]

/-- The format-selection loop of `parseCSV`: iterate the registry entries
in declared order, skipping the `generic` entry, and break at the first
whose detector accepts the sample lines; fall back to the generic
descriptor when none matched. -/
def selectFormat (firstLines : List String) : BankFormat :=
  match (bankFormatEntries.filter (fun p => p.1 ≠ "generic")).find?
      (fun p => p.2.detect firstLines) with
  | some p => p.2
  | none => genericFormat

/-- Build one raw record from the trimmed headers and the split field
values of a data line: Papa Parse (with `header: true`) pairs values with
headers in order, leaves missing trailing fields absent, and collects any
extra values under the `__parsed_extra` key. -/
def mkRow (delim : Char) (headers : List String) (values : List String) : RawRow :=
  let base := headers.zip values
  if headers.length < values.length then
    base ++ [("__parsed_extra", String.intercalate (String.mk [delim]) (values.drop headers.length))]
  else base

/-- Model of `Papa.parse` as configured in `parseCSV` (`header: true`,
fixed single-character delimiter, `skipEmptyLines: true`, header
trimming): split into lines, drop empty ones, read the first line as the
header row, and turn each further line into a header→value record.  Quoted
fields, which these semicolon-delimited exports do not use, are not
modelled, so the model never reports a critical (non-`FieldMismatch`)
structural error and the `CSV parsing error` throw of the source is dead
in the model. -/
def papaParse (delim : Char) (content : String) : List RawRow :=
  let rows := (splitOnChar '\n' content).filter (fun l => l ≠ "")
  match rows with
  | [] => []
  | header :: dataRows =>
    let headers := ((splitOnChar delim header).map (fun h => jsTrim h))
    dataRows.map (fun line => mkRow delim headers (splitOnChar delim line))

/-- The `Transaction` interface of `src/types` (`internal` defaults to
false at parse time; ids are reassigned after sorting). -/
structure Transaction where
  id : Nat
  date : SDate
  amount : ℚ
  currency : String
  counterparty : String
  description : String
  category : String
  variableSymbol : String
  note : String
  operationType : String
  internal : Bool
deriving DecidableEq, Repr

/-- Default transaction value (stands in for out-of-range JavaScript array
indexing, which is unreachable on the success path). -/
def defaultTransaction : Transaction :=
  ⟨0, ⟨0, 0, 0⟩, 0, "", "", "", "", "", "", "", false⟩

/-- The `DateRange` interface (`from`/`to` are reserved-ish words in Lean,
so the fields are named `fromDate`/`toDate`). -/
structure DateRange where
  fromDate : SDate
  toDate : SDate
deriving DecidableEq, Repr

/-- The `ParsedData` interface: detected bank name, ordered transaction
list and derived date range. -/
structure ParsedData where
  bankName : String
  transactions : List Transaction
  dateRange : DateRange
deriving DecidableEq, Repr

/-- The three fatal error kinds thrown by `parseCSV` (header row not
found; critical delimited-parse failure; no valid transactions). -/
inductive ParseError where
  | headerNotFound
  | criticalParse
  | noValidTransactions
deriving DecidableEq, Repr

/-- The row-mapping and filtering stage of `parseCSV`
(`result.data.map(...).filter(...)`): each record is mapped by the
selected descriptor, kept only when its date resolved and its amount is
non-zero, and given a provisional id equal to its position in the parsed
data (the map functions are total in the model, so the `catch` branch of
the source is dead).  Dropped records still advance the index. -/
def mapRows (fmt : BankFormat) : Nat → List RawRow → List Transaction
  | _, [] => []
  | idx, row :: rest =>
    let m := fmt.map row
    match m.date with
    | none => mapRows fmt (idx + 1) rest
    | some d =>
      if m.amount = 0 then mapRows fmt (idx + 1) rest
      else
        { id := idx, date := d, amount := m.amount, currency := m.currency,
          counterparty := m.counterparty, description := m.description,
          category := m.category, variableSymbol := m.variableSymbol,
          note := m.note, operationType := m.operationType,
          internal := false } :: mapRows fmt (idx + 1) rest

/-- The comparator of `transactions.sort((a, b) => b.date.getTime() -
a.date.getTime())` as a Boolean "may come first" relation: `a` may precede
`b` exactly when the comparator is non-positive, i.e. newest first.  Both
the ECMAScript sort and `stableSort` are stable, so they agree. -/
def dateDescBool (a b : Transaction) : Bool := decide (b.date.time ≤ a.date.time)

/-- Insert an element into a sorted list, before the first element it may
precede. -/
def insertSorted (le : Transaction → Transaction → Bool) (a : Transaction) :
    List Transaction → List Transaction
  | [] => [a]
  | b :: l => if le a b then a :: b :: l else b :: insertSorted le a l

/-- Stable insertion sort.  ECMAScript `Array.prototype.sort` is required
to be stable, and a stable sort for a total preorder is unique, so any
stable sorting algorithm — this one included — models it exactly. -/
def stableSort (le : Transaction → Transaction → Bool) : List Transaction → List Transaction
  | [] => []
  | a :: l => insertSorted le a (stableSort le l)

/-- The `transactions.forEach((t, i) => { t.id = i })` pass: reassign ids
consecutively from `k` in list order. -/
def reindexFrom : Nat → List Transaction → List Transaction
  | _, [] => []
  | i, t :: rest => { t with id := i } :: reindexFrom (i + 1) rest

/-- The success tail of `parseCSV` (source lines 277–290): stable sort by
descending date, reassign ids `0..N-1`, and derive the date range from the
last (oldest) and first (newest) element of the sorted list. -/
def buildParsed (fmt : BankFormat) (txs : List Transaction) : ParsedData :=
  let sorted := stableSort dateDescBool txs
  let final := reindexFrom 0 sorted
  { bankName := fmt.name
    transactions := final
    dateRange :=
      { fromDate := ((final.getLast?).getD defaultTransaction).date
        toDate := ((final.head?).getD defaultTransaction).date } }

/-- Strip a leading byte-order mark, as `fileContent.replace(/^﻿/, '')`. -/
def stripBOM (s : String) : String :=
  match s.data with
  | '﻿' :: rest => String.mk rest
  | _ => s

/-- Stage 1 of `parseCSV`: strip the BOM and split into trimmed lines. -/
def pipelineLines (fileContent : String) : List String :=
  (splitOnChar '\n' (stripBOM fileContent)).map (fun l => jsTrim l)

/-- Stage 2 of `parseCSV`: select the format descriptor from the first 10
trimmed lines. -/
def pipelineFormat (fileContent : String) : BankFormat :=
  selectFormat ((pipelineLines fileContent).take 10)

/-- Stages 4–5 of `parseCSV` for a located header row index: re-join the
lines from the header row on, delimited-parse them, and map/filter the
records. -/
def pipelineTxs (fileContent : String) (headerIdx : Nat) : List Transaction :=
  mapRows (pipelineFormat fileContent) 0
    (papaParse (pipelineFormat fileContent).delimiter
      (String.intercalate "\n" ((pipelineLines fileContent).drop headerIdx)))

/-- `parseCSV` from `csvParser.ts`: the linear pipeline.  Thrown `Error`s
are modelled as `Except.error`. -/
def parseCSV (fileContent : String) : Except ParseError ParsedData :=
  match (pipelineFormat fileContent).headerRow (pipelineLines fileContent) with
  | none => Except.error ParseError.headerNotFound
  | some headerIdx =>
    let txs := pipelineTxs fileContent headerIdx
    if txs.isEmpty then Except.error ParseError.noValidTransactions
    else Except.ok (buildParsed (pipelineFormat fileContent) txs)

/-- `maskAmount` from the privacy utilities: the numeric amount is kept
unchanged for calculations; only display formatting shows asterisks. -/
def maskAmount (amount : ℚ) : ℚ := amount

/-- `maskString` from the privacy utilities: short strings collapse to
`***`; medium strings keep the first character; longer strings keep the
first two characters and the last one.  (JavaScript `length`/`slice`
count UTF-16 units; this model counts code points, which coincide for the
Basic Multilingual Plane strings of this application.) -/
def maskString (str : String) (minLength : Nat) : String :=
  if str = "" ∨ str.length ≤ minLength then "***"
  else if str.length ≤ 5 then String.mk (str.data.take 1) ++ "***"
  else String.mk (str.data.take 2) ++ "***" ++ String.mk (str.data.drop (str.data.length - 1))

/-- `maskCounterparty` from the privacy utilities. -/
def maskCounterparty (name : String) : String :=
  if name = "" ∨ (jsTrim name).length = 0 then "" else maskString name 2

/-- Splitting on runs of whitespace, as JavaScript `split(/\s+/)`:
a leading or trailing run contributes an empty element. -/
def splitWsGo : Bool → List Char → List Char → List String
  | _, [], cur => [String.mk cur.reverse]
  | inRun, c :: rest, cur =>
    if jsIsSpace c then
      if inRun then splitWsGo true rest cur
      else String.mk cur.reverse :: splitWsGo true rest []
    else splitWsGo false rest (c :: cur)

/-- Model of JavaScript `desc.split(/\s+/)`. -/
def jsSplitWs (s : String) : List String := splitWsGo false s.data []

/-- `maskDescription` from the privacy utilities: keep the first two
words, mask the rest. -/
def maskDescription (desc : String) : String :=
  if desc = "" ∨ (jsTrim desc).length = 0 then ""
  else
    let words := jsSplitWs desc
    if words.length ≤ 2 then maskString desc 3
    else String.intercalate " " (words.take 2) ++ " ***"

/-- `maskTransaction` from the privacy utilities: a copy of the
transaction with masked counterparty, description and note; every other
field — in particular the numeric amount — is carried over unchanged. -/
def maskTransaction (t : Transaction) : Transaction :=
  { t with
    amount := maskAmount t.amount
    counterparty := maskCounterparty t.counterparty
    description := maskDescription t.description
    note := if t.note = "" then t.note else maskDescription t.note }

/-- `maskTransactions` from the privacy utilities. -/
def maskTransactions (transactions : List Transaction) : List Transaction :=
  transactions.map maskTransaction

/-- The serialized date range inside the stored payload (dates are ISO
strings produced by `toISOString()`; arbitrary JSON could hold any
string). -/
structure StoredDateRange where
  fromDate : String
  toDate : String
deriving DecidableEq, Repr

/-- The serialized `selectedRange`, whose fields a hand-edited or stale
payload may omit. -/
structure StoredSelectedRange where
  fromDate : Option String
  toDate : Option String
deriving DecidableEq, Repr

/-- One serialized transaction as written by `saveToStorage` (the spread
of a `Transaction` with the date replaced by an ISO string); `internal`
may be absent in older payloads, hence optional. -/
structure StoredTransaction where
  id : Nat
  date : String
  amount : ℚ
  currency : String
  counterparty : String
  description : String
  category : String
  variableSymbol : String
  note : String
  operationType : String
  internal : Option Bool
deriving DecidableEq, Repr

/-- The parsed JSON payload of `loadFromStorage`: every component may be
missing in an arbitrary stored blob. -/
structure StoredPayload where
  bankName : Option String
  dateRange : Option StoredDateRange
  transactions : Option (List StoredTransaction)
  selectedRange : Option StoredSelectedRange
deriving DecidableEq, Repr

/-- A date range reconstructed from storage: `new Date(string)` can yield
an Invalid Date, modelled by `none`. -/
structure LoadedDateRange where
  fromDate : Option SDate
  toDate : Option SDate
deriving DecidableEq, Repr

/-- A transaction reconstructed from storage (date possibly invalid). -/
structure LoadedTransaction where
  id : Nat
  date : Option SDate
  amount : ℚ
  currency : String
  counterparty : String
  description : String
  category : String
  variableSymbol : String
  note : String
  operationType : String
  internal : Bool
deriving DecidableEq, Repr

/-- The `AppData` interface as reconstructed by `loadFromStorage`. -/
structure AppData where
  bankName : String
  transactions : List LoadedTransaction
  dateRange : LoadedDateRange
deriving DecidableEq, Repr

/-- The `LoadFromStorageResult` interface of `storage.ts`. -/
structure LoadFromStorageResult where
  data : AppData
  selectedRange : LoadedDateRange
deriving DecidableEq, Repr

/-- JavaScript double-negation `!!t.internal` on a possibly-missing
boolean. -/
def jsTruthyOptBool : Option Bool → Bool
  | none => false
  | some b => b

/-- `loadFromStorage` from `storage.ts`.  The argument is the outcome of
`localStorage.getItem` followed by `JSON.parse`: `none` models both a
missing payload (`getItem` returned `null`) and an unparseable one (the
`JSON.parse` exception caught by the surrounding `try`/`catch`), each of
which makes the source return `null`.  The guard
`!parsed?.transactions?.length || !parsed?.dateRange` then rejects a
missing or empty transaction list and a missing date range. -/
def loadFromStorage (parsed : Option StoredPayload) : Option LoadFromStorageResult :=
  match parsed with
  | none => none
  | some p =>
    match p.transactions, p.dateRange with
    | some txs, some dr =>
      if txs.length = 0 then none
      else
        let dateRange : LoadedDateRange :=
          { fromDate := jsNewDate dr.fromDate, toDate := jsNewDate dr.toDate }
        let transactions := txs.map (fun t =>
          ({ id := t.id, date := jsNewDate t.date, amount := t.amount,
             currency := t.currency, counterparty := t.counterparty,
             description := t.description, category := t.category,
             variableSymbol := t.variableSymbol, note := t.note,
             operationType := t.operationType,
             internal := jsTruthyOptBool t.internal } : LoadedTransaction))
        let selectedRange : LoadedDateRange :=
          match p.selectedRange with
          | some sr =>
            if jsTruthyStr sr.fromDate && jsTruthyStr sr.toDate then
              { fromDate := jsNewDate (sr.fromDate.getD "")
                toDate := jsNewDate (sr.toDate.getD "") }
            else dateRange
          | none => dateRange
        some
          { data :=
              { bankName := jsOr p.bankName "Saved data"
                transactions := transactions
                dateRange := dateRange }
            selectedRange := selectedRange }
    | _, _ => none

/-- First non-`none` element of a list of optional dates (used to state
the ordered-attempts behaviour of `parseDate`). -/
def firstSome : List (Option SDate) → Option SDate
  | [] => none
  | some d :: _ => some d
  | none :: rest => firstSome rest

/-- A small generic-format statement used to exercise the pipeline on a
concrete successful input. -/
def demoCSV : String := "Datum;Castka;Popis\n03.01.2024;100;Tesco\n05.01.2024;-50;Shell"

/-- The output `parseCSV` produces on `demoCSV`. -/
def demoParsed : ParsedData :=
  { bankName := "Generic CSV"
    transactions :=
      [ { id := 0, date := ⟨2024, 1, 5⟩, amount := -50, currency := "CZK",
          counterparty := "", description := "Shell", category := "Tankování",
          variableSymbol := "", note := "", operationType := "", internal := false },
        { id := 1, date := ⟨2024, 1, 3⟩, amount := 100, currency := "CZK",
          counterparty := "", description := "Tesco", category := "Potraviny",
          variableSymbol := "", note := "", operationType := "", internal := false } ]
    dateRange := { fromDate := ⟨2024, 1, 3⟩, toDate := ⟨2024, 1, 5⟩ } }

/-- A statement whose only data row has an unparseable date and a zero
amount, so every row is filtered out while the header row is found. -/
def demoBadCSV : String := "Datum;Castka;Popis\nfoo;0;x"

/-- A concrete stored payload with one serialized transaction. -/
def demoStoredPayload : StoredPayload :=
  { bankName := some "Generic CSV"
    dateRange := some ⟨"2024-01-03T00:00:00.000Z", "2024-01-05T00:00:00.000Z"⟩
    transactions := some
      [ ⟨0, "2024-01-05T00:00:00.000Z", -50, "CZK", "", "Shell", "Tankování",
         "", "", "", some false⟩ ]
    selectedRange := none }

/-- The result `loadFromStorage` produces on `demoStoredPayload`. -/
def demoLoadResult : LoadFromStorageResult :=
  { data :=
      { bankName := "Generic CSV"
        transactions :=
          [ ⟨0, some ⟨2024, 1, 5⟩, -50, "CZK", "", "Shell", "Tankování",
             "", "", "", false⟩ ]
        dateRange := { fromDate := some ⟨2024, 1, 3⟩, toDate := some ⟨2024, 1, 5⟩ } }
    selectedRange := { fromDate := some ⟨2024, 1, 3⟩, toDate := some ⟨2024, 1, 5⟩ } }

theorem guessCategoryGoEq (desc : String) :
    ∀ rules : List CategoryRule,
      guessCategoryGo desc rules =
        (match rules.find? (fun r => r.keywords.any (fun kw => strContains desc kw)) with
         | some r => r.category
         | none => "Ostatní")
  | [] => rfl
  | r :: rest => by
    by_cases h : r.keywords.any (fun kw => strContains desc kw)
    · simp [guessCategoryGo, h, List.find?_cons_of_pos]
    · simp only [Bool.not_eq_true] at h
      simp [guessCategoryGo, h, List.find?_cons_of_neg, guessCategoryGoEq desc rest]

/-- Claim C4: `parseCSV` is a pure function of the input file content —
two runs on identical input bytes yield identical `ParsedData` structures.
(The embedding is a total function with no hidden state: the date parser's
reference date never contributes components to the fully-specified
layouts, so nothing besides the input bytes enters the result.) -/
theorem parseCSV_deterministic (s t : String) (h : s = t) : parseCSV s = parseCSV t := by
  rw [h]

theorem parseCSV_deterministic_witness : parseCSV demoCSV = parseCSV demoCSV :=
  parseCSV_deterministic demoCSV demoCSV rfl

/-- Claim C6: the amount parser strips whitespace, converts a comma
decimal separator to a period and parses as floating point; missing input
parses to `0`, `"1 234,56"` parses to `1234.56`, `"abc"` parses to `0`,
and any input whose cleaned form is unparseable parses to `0`. -/
theorem parseCzechNumber_spec :
    parseCzechNumber none = 0 ∧
    parseCzechNumberS "1 234,56" = 1234.56 ∧
    parseCzechNumberS "abc" = 0 ∧
    ∀ s : String,
      jsParseFloat (String.mk (replaceFirstComma (s.data.filter (fun c => !jsIsSpace c)))) = none →
      parseCzechNumberS s = 0 := by
  refine ⟨rfl, ?_, by decide, ?_⟩
  · rw [show (1234.56 : ℚ) = Rat.ofScientific 123456 true 2 from rfl, Rat.ofScientific_def]
    decide
  intro s h
  unfold parseCzechNumberS parseCzechNumber
  by_cases he : s = ""
  · simp [he]
  · simp [he, h]

theorem parseCzechNumber_spec_witness : parseCzechNumberS "nonsense" = 0 :=
  parseCzechNumber_spec.2.2.2 "nonsense" (by decide)

/-- Claim C7: the date parser tries the fixed ordered layout list —
`dd.MM.yyyy`, `d.M.yyyy` (the same matcher in date-fns), ISO
`yyyy-MM-dd`, `dd/MM/yyyy` — then the free-form `Date` constructor; the
first attempt yielding a valid date wins, and it returns `none` (never
raising) when every attempt fails, including for missing or empty
input. -/
theorem parseDate_ordered_attempts (s : String) :
    parseDateOpt none = none ∧
    parseDate s =
      (if s = "" then none
       else firstSome
         [dfnsParseDMY '.' (jsTrim s), dfnsParseDMY '.' (jsTrim s),
          dfnsParseYMD '-' (jsTrim s), dfnsParseDMY '/' (jsTrim s), jsNewDate (jsTrim s)]) := by
  refine ⟨rfl, ?_⟩
  unfold parseDate
  by_cases h : s = ""
  · simp [h]
  · simp only [h, if_false]
    cases h1 : dfnsParseDMY '.' (jsTrim s) <;>
      cases h2 : dfnsParseYMD '-' (jsTrim s) <;>
      cases h3 : dfnsParseDMY '/' (jsTrim s) <;>
      cases h4 : jsNewDate (jsTrim s) <;>
      simp [firstSome, h1, h2, h3, h4]

/-- Claim C8: the category inferencer lower-cases the description and
returns the category of the first keyword rule that matches, in fixed
priority order, falling back to the generic `"Ostatní"` category when no
rule matches; a description containing a fuel-station keyword is inferred
into the fuel category. -/
theorem guessCategory_spec (d : String) :
    guessCategory d =
      (match categoryRules.find?
          (fun r => r.keywords.any (fun kw => strContains (jsToLower d) kw)) with
       | some r => r.category
       | none => "Ostatní") ∧
    guessCategory "SHELL Praha 4" = "Tankování" :=
  ⟨guessCategoryGoEq (jsToLower d) categoryRules, by decide⟩

/-- Claim C9: privacy masking is a frame on the transaction — `id`,
`date`, `amount`, `category`, `currency`, `variableSymbol`,
`operationType` and `internal` are carried over unchanged; in particular
the numeric amount is never altered (masking affects display only). -/
theorem maskTransaction_frame (t : Transaction) :
    (maskTransaction t).id = t.id ∧
    (maskTransaction t).date = t.date ∧
    (maskTransaction t).amount = t.amount ∧
    (maskTransaction t).category = t.category ∧
    (maskTransaction t).currency = t.currency ∧
    (maskTransaction t).variableSymbol = t.variableSymbol ∧
    (maskTransaction t).operationType = t.operationType ∧
    (maskTransaction t).internal = t.internal :=
  ⟨rfl, rfl, rfl, rfl, rfl, rfl, rfl, rfl⟩

/-- Claim C5: format selection is greedy first-match over the fixed
declared order — the bank-specific descriptors (ČSOB, Moneta, KB) are
tried in declared order against the first 10 trimmed lines, the first
whose detector accepts is used, and otherwise the generic catch-all
descriptor is used; the catch-all's detector always returns true and is
effectively tried last, so format detection always succeeds (the selector
is a total function into the registry). -/
theorem selectFormat_greedy (ls : List String) :
    genericFormat.detect ls = true ∧
    selectFormat ls =
      (if csobFormat.detect ls then csobFormat
       else if monetaFormat.detect ls then monetaFormat
       else if kbFormat.detect ls then kbFormat
       else genericFormat) ∧
    (∀ s : String, pipelineFormat s = selectFormat ((pipelineLines s).take 10)) := by
  refine ⟨rfl, ?_, fun s => rfl⟩
  have hf : bankFormatEntries.filter (fun p => p.1 ≠ "generic") =
      [("csob", csobFormat), ("moneta", monetaFormat), ("kb", kbFormat)] := by
    simp [bankFormatEntries, List.filter]
  unfold selectFormat
  rw [hf]
  by_cases h1 : csobFormat.detect ls <;> by_cases h2 : monetaFormat.detect ls <;>
    by_cases h3 : kbFormat.detect ls <;>
    simp [List.find?, h1, h2, h3]

theorem insertSortedPerm (le : Transaction → Transaction → Bool) (a : Transaction) :
    ∀ l : List Transaction, (insertSorted le a l).Perm (a :: l)
  | [] => List.Perm.refl _
  | b :: l => by
    unfold insertSorted
    split
    · exact List.Perm.refl _
    · exact ((insertSortedPerm le a l).cons b).trans (List.Perm.swap a b l)

theorem stableSortPerm (le : Transaction → Transaction → Bool) :
    ∀ l : List Transaction, (stableSort le l).Perm l
  | [] => List.Perm.refl _
  | a :: l => by
    unfold stableSort
    exact (insertSortedPerm le a (stableSort le l)).trans ((stableSortPerm le l).cons a)

theorem pairwiseInsertSorted (le : Transaction → Transaction → Bool)
    (htrans : ∀ a b c, le a b = true → le b c = true → le a c = true)
    (htotal : ∀ a b, (le a b || le b a) = true) (a : Transaction) :
    ∀ l : List Transaction, l.Pairwise (fun x y => le x y = true) →
      (insertSorted le a l).Pairwise (fun x y => le x y = true)
  | [], _ => by simp [insertSorted]
  | b :: l, hp => by
    unfold insertSorted
    by_cases hab : le a b
    · rw [if_pos hab]
      refine List.Pairwise.cons ?_ hp
      intro x hx
      rcases List.mem_cons.1 hx with h1 | h1
      · rw [h1]; exact hab
      · exact htrans a b x hab ((List.pairwise_cons.1 hp).1 x h1)
    · rw [if_neg hab]
      have hba : le b a = true := by
        have h2 := htotal a b
        simp only [Bool.or_eq_true] at h2
        rcases h2 with h2 | h2
        · exact absurd h2 hab
        · exact h2
      refine List.Pairwise.cons ?_
        (pairwiseInsertSorted le htrans htotal a l (List.pairwise_cons.1 hp).2)
      intro x hx
      have hx2 : x ∈ a :: l := (insertSortedPerm le a l).mem_iff.1 hx
      rcases List.mem_cons.1 hx2 with h1 | h1
      · rw [h1]; exact hba
      · exact (List.pairwise_cons.1 hp).1 x h1

theorem pairwiseStableSort (le : Transaction → Transaction → Bool)
    (htrans : ∀ a b c, le a b = true → le b c = true → le a c = true)
    (htotal : ∀ a b, (le a b || le b a) = true) :
    ∀ l : List Transaction, (stableSort le l).Pairwise (fun x y => le x y = true)
  | [] => List.Pairwise.nil
  | a :: l => by
    unfold stableSort
    exact pairwiseInsertSorted le htrans htotal a (stableSort le l)
      (pairwiseStableSort le htrans htotal l)

theorem stableSortPairwiseDateDesc (l : List Transaction) :
    (stableSort dateDescBool l).Pairwise (fun a b => b.date.time ≤ a.date.time) := by
  have htrans : ∀ a b c : Transaction,
      dateDescBool a b = true → dateDescBool b c = true → dateDescBool a c = true := by
    intro a b c hab hbc
    simp only [dateDescBool, decide_eq_true_eq] at hab hbc ⊢
    omega
  have htotal : ∀ a b : Transaction, (dateDescBool a b || dateDescBool b a) = true := by
    intro a b
    simp only [dateDescBool, Bool.or_eq_true, decide_eq_true_eq]
    omega
  have h := pairwiseStableSort dateDescBool htrans htotal l
  exact h.imp (fun hab => by simpa [dateDescBool] using hab)

theorem reindexFromLength (k : Nat) (l : List Transaction) :
    (reindexFrom k l).length = l.length := by
  induction l generalizing k with
  | nil => rfl
  | cons t rest ih => simp [reindexFrom, ih]

theorem reindexFromMapId (k : Nat) (l : List Transaction) :
    (reindexFrom k l).map (fun t => t.id) = List.range' k l.length := by
  induction l generalizing k with
  | nil => rfl
  | cons t rest ih => simp [reindexFrom, List.range', ih]

theorem reindexFromMapDate (k : Nat) (l : List Transaction) :
    (reindexFrom k l).map (fun t => t.date) = l.map (fun t => t.date) := by
  induction l generalizing k with
  | nil => rfl
  | cons t rest ih => simp [reindexFrom, ih]

theorem reindexFromPairwiseDate {R : SDate → SDate → Prop} (k : Nat) (l : List Transaction)
    (h : l.Pairwise (fun a b => R a.date b.date)) :
    (reindexFrom k l).Pairwise (fun a b => R a.date b.date) := by
  have h1 : ((l.map (fun t => t.date)).Pairwise R) := List.pairwise_map.2 h
  have h2 : (((reindexFrom k l).map (fun t => t.date)).Pairwise R) := by
    rw [reindexFromMapDate]; exact h1
  exact List.pairwise_map.1 h2

theorem parseCSVOkInv (s : String) (r : ParsedData) (h : parseCSV s = Except.ok r) :
    ∃ k, (pipelineFormat s).headerRow (pipelineLines s) = some k ∧
      pipelineTxs s k ≠ [] ∧ r = buildParsed (pipelineFormat s) (pipelineTxs s k) := by
  unfold parseCSV at h
  cases hh : (pipelineFormat s).headerRow (pipelineLines s) with
  | none => rw [hh] at h; cases h
  | some k =>
    rw [hh] at h
    simp only at h
    by_cases he : (pipelineTxs s k).isEmpty
    · rw [if_pos he] at h; cases h
    · rw [if_neg he] at h
      refine ⟨k, rfl, ?_, (Except.ok.inj h).symm⟩
      simpa [List.isEmpty_iff] using he

theorem buildParsedTransactions (fmt : BankFormat) (txs : List Transaction) :
    (buildParsed fmt txs).transactions = reindexFrom 0 (stableSort dateDescBool txs) := rfl

/-- Claim C1: on every successful parse, the transaction list is sorted by
non-increasing date (newest first), and the ids, read in list order, are
exactly `0, 1, …, N-1` where `N` is the list length. -/
theorem parseCSV_sorted_and_ids (s : String) (r : ParsedData)
    (h : parseCSV s = Except.ok r) :
    r.transactions.Pairwise (fun a b => b.date.time ≤ a.date.time) ∧
    r.transactions.map (fun t => t.id) = List.range r.transactions.length := by
  obtain ⟨k, hk, hne, hr⟩ := parseCSVOkInv s r h
  subst hr
  rw [buildParsedTransactions]
  constructor
  · exact @reindexFromPairwiseDate (fun x y => y.time ≤ x.time) 0 _
      (stableSortPairwiseDateDesc _)
  · rw [reindexFromMapId, reindexFromLength, List.range_eq_range']

theorem memOfGetLastEq {α : Type} : ∀ {l : List α} {b : α}, l.getLast? = some b → b ∈ l := by
  intro l
  induction l with
  | nil => intro b hb; cases hb
  | cons x xs ih =>
    intro b hb
    cases xs with
    | nil =>
      simp only [List.getLast?_singleton, Option.some.injEq] at hb
      simp [hb]
    | cons y ys =>
      rw [List.getLast?_cons_cons] at hb
      exact List.mem_cons_of_mem x (ih hb)

theorem getLastIsSomeOfNeNil {α : Type} :
    ∀ {l : List α}, l ≠ [] → ∃ b, l.getLast? = some b := by
  intro l
  induction l with
  | nil => intro h; exact absurd rfl h
  | cons x xs ih =>
    intro _
    cases xs with
    | nil => exact ⟨x, rfl⟩
    | cons y ys =>
      obtain ⟨b, hb⟩ := ih (by simp)
      exact ⟨b, by rw [List.getLast?_cons_cons]; exact hb⟩

theorem pairwiseRelHead {α : Type} {R : α → α → Prop} {x : α} {xs : List α}
    (h : (x :: xs).Pairwise R) : ∀ a ∈ x :: xs, a = x ∨ R x a := by
  intro a ha
  rcases List.mem_cons.1 ha with h1 | h1
  · exact Or.inl h1
  · exact Or.inr ((List.pairwise_cons.1 h).1 a h1)

theorem pairwiseRelGetLast {α : Type} {R : α → α → Prop} :
    ∀ {l : List α} {b : α}, l.Pairwise R → l.getLast? = some b →
      ∀ a ∈ l, a = b ∨ R a b := by
  intro l
  induction l with
  | nil => intro b _ hb; cases hb
  | cons x xs ih =>
    intro b hp hb a ha
    cases xs with
    | nil =>
      simp only [List.getLast?_singleton, Option.some.injEq] at hb
      simp only [List.mem_singleton] at ha
      exact Or.inl (ha.trans hb)
    | cons y ys =>
      rw [List.getLast?_cons_cons] at hb
      rcases List.mem_cons.1 ha with h1 | h1
      · subst h1
        exact Or.inr ((List.pairwise_cons.1 hp).1 b (memOfGetLastEq hb))
      · exact ih (List.pairwise_cons.1 hp).2 hb a h1

/-- Claim C2: on every successful parse, `dateRange.from` is the minimum
date over the returned transactions and `dateRange.to` is the maximum:
both are attained by some transaction, `from` is below and `to` above
every transaction date, and consequently `from ≤ to` whenever the list is
non-empty. -/
theorem parseCSV_dateRange_minmax (s : String) (r : ParsedData)
    (h : parseCSV s = Except.ok r) :
    (∃ t ∈ r.transactions, t.date = r.dateRange.fromDate) ∧
    (∀ t ∈ r.transactions, r.dateRange.fromDate.time ≤ t.date.time) ∧
    (∃ t ∈ r.transactions, t.date = r.dateRange.toDate) ∧
    (∀ t ∈ r.transactions, t.date.time ≤ r.dateRange.toDate.time) ∧
    (r.transactions ≠ [] → r.dateRange.fromDate.time ≤ r.dateRange.toDate.time) := by
  obtain ⟨k, hk, hne, hr⟩ := parseCSVOkInv s r h
  subst hr
  set final := reindexFrom 0 (stableSort dateDescBool (pipelineTxs s k)) with hfinal
  have htx : (buildParsed (pipelineFormat s) (pipelineTxs s k)).transactions = final := rfl
  have hlen : final.length = (pipelineTxs s k).length := by
    rw [hfinal, reindexFromLength, (stableSortPerm dateDescBool (pipelineTxs s k)).length_eq]
  have hfne : final ≠ [] := by
    intro hnil
    rw [hnil] at hlen
    exact hne (List.eq_nil_of_length_eq_zero hlen.symm)
  have hpw : final.Pairwise (fun a b => b.date.time ≤ a.date.time) := by
    rw [hfinal]
    exact @reindexFromPairwiseDate (fun x y => y.time ≤ x.time) 0 _
      (stableSortPairwiseDateDesc _)
  obtain ⟨b, hb⟩ := getLastIsSomeOfNeNil hfne
  obtain ⟨f, rest, hfin⟩ := List.exists_cons_of_ne_nil hfne
  have hfrom : (buildParsed (pipelineFormat s) (pipelineTxs s k)).dateRange.fromDate = b.date := by
    show ((final.getLast?).getD defaultTransaction).date = b.date
    rw [hb]; rfl
  have hto : (buildParsed (pipelineFormat s) (pipelineTxs s k)).dateRange.toDate = f.date := by
    show ((final.head?).getD defaultTransaction).date = f.date
    rw [hfin]; rfl
  rw [htx, hfrom, hto]
  have hbmem : b ∈ final := memOfGetLastEq hb
  have hfmem : f ∈ final := by rw [hfin]; exact List.mem_cons_self f rest
  have hmin : ∀ t ∈ final, b.date.time ≤ t.date.time := by
    intro t ht
    rcases pairwiseRelGetLast hpw hb t ht with h1 | h1
    · rw [h1]
    · exact h1
  have hmax : ∀ t ∈ final, t.date.time ≤ f.date.time := by
    intro t ht
    have hpw2 : (f :: rest).Pairwise (fun a b => b.date.time ≤ a.date.time) := hfin ▸ hpw
    have ht2 : t ∈ f :: rest := hfin ▸ ht
    rcases pairwiseRelHead hpw2 t ht2 with h1 | h1
    · rw [h1]
    · exact h1
  exact ⟨⟨b, hbmem, rfl⟩, hmin, ⟨f, hfmem, rfl⟩, hmax, fun _ => hmin f hfmem⟩

/-- Claim C3: `parseCSV` never returns successfully with an empty
transaction list — on any input where a header row was located but every
data row is filtered out (null-parsed date or zero amount; mapping
exceptions cannot occur in the model), it fails with the
NoValidTransactions error, and every successful parse has a non-empty
transaction list. -/
theorem parseCSV_no_valid_rows (s t : String) (k : Nat) (r : ParsedData)
    (hk : (pipelineFormat s).headerRow (pipelineLines s) = some k)
    (hempty : pipelineTxs s k = [])
    (hok : parseCSV t = Except.ok r) :
    parseCSV s = Except.error ParseError.noValidTransactions ∧ r.transactions ≠ [] := by
  constructor
  · unfold parseCSV
    rw [hk]
    simp [hempty]
  · obtain ⟨k2, hk2, hne, hr⟩ := parseCSVOkInv t r hok
    subst hr
    rw [buildParsedTransactions]
    intro hnil
    apply hne
    apply List.eq_nil_of_length_eq_zero
    have h1 : (reindexFrom 0 (stableSort dateDescBool (pipelineTxs t k2))).length = 0 := by
      rw [hnil]; rfl
    rw [reindexFromLength, (stableSortPerm dateDescBool (pipelineTxs t k2)).length_eq] at h1
    exact h1

/-- Claim C10: `loadFromStorage` never returns a result with an empty
transaction list — a successful load implies the stored payload was
present with a non-empty transaction list and a date range, and a missing
or unparseable payload (both modelled by `none`) loads as `none`. -/
theorem loadFromStorage_nonempty (p : StoredPayload) (r : LoadFromStorageResult)
    (h : loadFromStorage (some p) = some r) :
    r.data.transactions.length > 0 ∧
    p.transactions ≠ none ∧ p.transactions ≠ some [] ∧ p.dateRange ≠ none ∧
    loadFromStorage none = none := by
  obtain ⟨bn, pdr, ptx, psr⟩ := p
  cases ptx with
  | none => simp [loadFromStorage] at h
  | some txs =>
    cases pdr with
    | none => simp [loadFromStorage] at h
    | some dr =>
      simp only [loadFromStorage] at h
      by_cases hlen : txs.length = 0
      · rw [if_pos hlen] at h; cases h
      · rw [if_neg hlen] at h
        have h2 := Option.some.inj h
        refine ⟨?_, by simp, ?_, by simp, rfl⟩
        · rw [← h2]
          simpa using Nat.pos_of_ne_zero hlen
        · simp only [ne_eq, Option.some.injEq]
          intro hc
          exact hlen (by rw [hc]; rfl)

theorem parseCSV_sorted_and_ids_witness :
    demoParsed.transactions.Pairwise (fun a b => b.date.time ≤ a.date.time) ∧
    demoParsed.transactions.map (fun t => t.id) = List.range demoParsed.transactions.length :=
  parseCSV_sorted_and_ids demoCSV demoParsed rfl

theorem parseCSV_dateRange_minmax_witness :
    (∃ t ∈ demoParsed.transactions, t.date = demoParsed.dateRange.fromDate) ∧
    (∀ t ∈ demoParsed.transactions, demoParsed.dateRange.fromDate.time ≤ t.date.time) ∧
    (∃ t ∈ demoParsed.transactions, t.date = demoParsed.dateRange.toDate) ∧
    (∀ t ∈ demoParsed.transactions, t.date.time ≤ demoParsed.dateRange.toDate.time) ∧
    (demoParsed.transactions ≠ [] →
      demoParsed.dateRange.fromDate.time ≤ demoParsed.dateRange.toDate.time) :=
  parseCSV_dateRange_minmax demoCSV demoParsed rfl

theorem parseCSV_no_valid_rows_witness :
    parseCSV demoBadCSV = Except.error ParseError.noValidTransactions ∧
    demoParsed.transactions ≠ [] :=
  parseCSV_no_valid_rows demoBadCSV demoCSV 0 demoParsed rfl rfl rfl

theorem loadFromStorage_nonempty_witness :
    demoLoadResult.data.transactions.length > 0 ∧
    demoStoredPayload.transactions ≠ none ∧
    demoStoredPayload.transactions ≠ some [] ∧
    demoStoredPayload.dateRange ≠ none ∧
    loadFromStorage none = none :=
  loadFromStorage_nonempty demoStoredPayload demoLoadResult rfl
